import Mathlib

/-!
Verification of the snippet cache and command-execution coordinator of the
temper editor integration (src/editors/sublime/temper.py).

The embedding models the pure data flow of the plugin: host-language values
decoded from the external tool's standard output are represented by `Json`,
exceptions that can escape a function by `Except PyErr`, and the subprocess
boundary by explicit parameters carrying the tool's raw output.  The decoder
`pyLoads` models the host language's strict structured-text decoder on the
fragment the tool emits (null, booleans, integers, strings with basic
escapes, arrays, objects); inputs outside that fragment are rejected, and
every theorem that depends on a decode outcome takes that outcome as an
explicit hypothesis.
-/

set_option maxHeartbeats 2000000
set_option maxRecDepth 4000

namespace Temper

/-- Decoded structured values.  Objects keep insertion order; duplicate keys
are resolved last-value-wins at first-occurrence position, as the host
language's dictionaries do. -/
inductive Json where
  | null : Json
  | bool : Bool → Json
  | num : Int → Json
  | str : String → Json
  | arr : List Json → Json
  | obj : List (String × Json) → Json

mutual

/-- Decidable equality of decoded values. -/
def Json.decEq : (a b : Json) → Decidable (a = b)
  | .null, .null => isTrue rfl
  | .bool x, .bool y =>
    if h : x = y then isTrue (by rw [h]) else isFalse (fun hh => h (Json.bool.inj hh))
  | .num x, .num y =>
    if h : x = y then isTrue (by rw [h]) else isFalse (fun hh => h (Json.num.inj hh))
  | .str x, .str y =>
    if h : x = y then isTrue (by rw [h]) else isFalse (fun hh => h (Json.str.inj hh))
  | .arr xs, .arr ys =>
    match Json.decEqList xs ys with
    | isTrue h => isTrue (by rw [h])
    | isFalse h => isFalse (fun hh => h (Json.arr.inj hh))
  | .obj xs, .obj ys =>
    match Json.decEqObj xs ys with
    | isTrue h => isTrue (by rw [h])
    | isFalse h => isFalse (fun hh => h (Json.obj.inj hh))
  | .null, .bool _ => isFalse (fun h => Json.noConfusion h)
  | .null, .num _ => isFalse (fun h => Json.noConfusion h)
  | .null, .str _ => isFalse (fun h => Json.noConfusion h)
  | .null, .arr _ => isFalse (fun h => Json.noConfusion h)
  | .null, .obj _ => isFalse (fun h => Json.noConfusion h)
  | .bool _, .null => isFalse (fun h => Json.noConfusion h)
  | .bool _, .num _ => isFalse (fun h => Json.noConfusion h)
  | .bool _, .str _ => isFalse (fun h => Json.noConfusion h)
  | .bool _, .arr _ => isFalse (fun h => Json.noConfusion h)
  | .bool _, .obj _ => isFalse (fun h => Json.noConfusion h)
  | .num _, .null => isFalse (fun h => Json.noConfusion h)
  | .num _, .bool _ => isFalse (fun h => Json.noConfusion h)
  | .num _, .str _ => isFalse (fun h => Json.noConfusion h)
  | .num _, .arr _ => isFalse (fun h => Json.noConfusion h)
  | .num _, .obj _ => isFalse (fun h => Json.noConfusion h)
  | .str _, .null => isFalse (fun h => Json.noConfusion h)
  | .str _, .bool _ => isFalse (fun h => Json.noConfusion h)
  | .str _, .num _ => isFalse (fun h => Json.noConfusion h)
  | .str _, .arr _ => isFalse (fun h => Json.noConfusion h)
  | .str _, .obj _ => isFalse (fun h => Json.noConfusion h)
  | .arr _, .null => isFalse (fun h => Json.noConfusion h)
  | .arr _, .bool _ => isFalse (fun h => Json.noConfusion h)
  | .arr _, .num _ => isFalse (fun h => Json.noConfusion h)
  | .arr _, .str _ => isFalse (fun h => Json.noConfusion h)
  | .arr _, .obj _ => isFalse (fun h => Json.noConfusion h)
  | .obj _, .null => isFalse (fun h => Json.noConfusion h)
  | .obj _, .bool _ => isFalse (fun h => Json.noConfusion h)
  | .obj _, .num _ => isFalse (fun h => Json.noConfusion h)
  | .obj _, .str _ => isFalse (fun h => Json.noConfusion h)
  | .obj _, .arr _ => isFalse (fun h => Json.noConfusion h)

/-- Decidable equality of lists of decoded values. -/
def Json.decEqList : (as bs : List Json) → Decidable (as = bs)
  | [], [] => isTrue rfl
  | [], _ :: _ => isFalse (fun h => List.noConfusion h)
  | _ :: _, [] => isFalse (fun h => List.noConfusion h)
  | a :: as, b :: bs =>
    match Json.decEq a b, Json.decEqList as bs with
    | isTrue h1, isTrue h2 => isTrue (by rw [h1, h2])
    | isFalse h1, _ => isFalse (fun hh => h1 (List.cons.inj hh).1)
    | _, isFalse h2 => isFalse (fun hh => h2 (List.cons.inj hh).2)

/-- Decidable equality of object member lists. -/
def Json.decEqObj : (as bs : List (String × Json)) → Decidable (as = bs)
  | [], [] => isTrue rfl
  | [], _ :: _ => isFalse (fun h => List.noConfusion h)
  | _ :: _, [] => isFalse (fun h => List.noConfusion h)
  | (k1, v1) :: as, (k2, v2) :: bs =>
    if hk : k1 = k2 then
      match Json.decEq v1 v2, Json.decEqObj as bs with
      | isTrue h1, isTrue h2 => isTrue (by rw [hk, h1, h2])
      | isFalse h1, _ => isFalse (fun hh => h1 (congrArg Prod.snd (List.cons.inj hh).1))
      | _, isFalse h2 => isFalse (fun hh => h2 (List.cons.inj hh).2)
    else isFalse (fun hh => hk (congrArg Prod.fst (List.cons.inj hh).1))

end

instance : DecidableEq Json := Json.decEq

/-- Decidable equality of fallible results, so concrete runs evaluate. -/
instance {ε α : Type} [DecidableEq ε] [DecidableEq α] : DecidableEq (Except ε α)
  | .ok a, .ok b =>
    if h : a = b then isTrue (by rw [h])
    else isFalse (fun hh => h (by cases hh; rfl))
  | .error a, .error b =>
    if h : a = b then isTrue (by rw [h])
    else isFalse (fun hh => h (by cases hh; rfl))
  | .ok _, .error _ => isFalse (fun h => Except.noConfusion h)
  | .error _, .ok _ => isFalse (fun h => Except.noConfusion h)

/-- Exceptions that can escape the plugin's helper functions. -/
inductive PyErr where
  | valueError
  | attributeError
  | typeError
  deriving DecidableEq

/-- Dictionary read with a default, first (unique) occurrence wins. -/
def dictGet (fs : List (String × Json)) (k : String) (d : Json) : Json :=
  match fs.lookup k with
  | some v => v
  | none => d

/-- Dictionary write: update in place when the key exists, append otherwise. -/
def objInsert (fs : List (String × Json)) (k : String) (v : Json) : List (String × Json) :=
  if (fs.lookup k).isSome then
    fs.map (fun kv => if kv.1 = k then (k, v) else kv)
  else fs ++ [(k, v)]

/-- Attribute-style `.get(k, d)`: raises on a value that is not an object. -/
def pyGet (r : Json) (k : String) (d : Json) : Except PyErr Json :=
  match r with
  | .obj fs => .ok (dictGet fs k d)
  | _ => .error .attributeError

/-- Truthiness of a decoded value, as the host language tests it. -/
def Json.truthy : Json → Bool
  | .null => false
  | .bool b => b
  | .num n => decide (n ≠ 0)
  | .str s => decide (s ≠ "")
  | .arr xs => !xs.isEmpty
  | .obj fs => !fs.isEmpty

/-- Structured-text whitespace accepted between tokens by the decoder. -/
def jsonWs (c : Char) : Bool :=
  c = ' ' || c = '\t' || c = '\n' || c = '\r'

/-- Skip leading decoder whitespace. -/
def skipWs : List Char → List Char
  | [] => []
  | c :: cs => if jsonWs c then skipWs cs else c :: cs

/-- Escape sequences accepted inside decoded string literals. -/
def escChar : Char → Option Char
  | '"' => some '"'
  | '\\' => some '\\'
  | '/' => some '/'
  | 'b' => some (Char.ofNat 8)
  | 'f' => some (Char.ofNat 12)
  | 'n' => some '\n'
  | 'r' => some '\r'
  | 't' => some '\t'
  | _ => none

/-- Parse the body of a string literal, after the opening quote. -/
def parseStrAux : List Char → Option (List Char × List Char)
  | [] => none
  | c :: cs =>
    if c = '"' then some ([], cs)
    else if c = '\\' then
      match cs with
      | [] => none
      | e :: cs2 =>
        match escChar e with
        | none => none
        | some d =>
          match parseStrAux cs2 with
          | none => none
          | some (s, rest) => some (d :: s, rest)
    else if c.toNat < 32 then none
    else
      match parseStrAux cs with
      | none => none
      | some (s, rest) => some (c :: s, rest)

/-- Value of a decimal digit character, if it is one. -/
def digitVal (c : Char) : Option Nat :=
  if '0' ≤ c ∧ c ≤ '9' then some (c.toNat - 48) else none

/-- Split a maximal run of decimal digits off the front. -/
def takeDigits : List Char → List Nat × List Char
  | [] => ([], [])
  | c :: cs =>
    match digitVal c with
    | some d =>
      let p := takeDigits cs
      (d :: p.1, p.2)
    | none => ([], c :: cs)

/-- Read a digit run as a number. -/
def digitsToNat (ds : List Nat) : Nat := ds.foldl (fun a d => a * 10 + d) 0

/-- Parse an integer literal (the numeric fragment the model supports). -/
def parseNum (cs : List Char) : Option (Json × List Char) :=
  let p := match cs with
    | '-' :: rest => (true, rest)
    | _ => (false, cs)
  match takeDigits p.2 with
  | ([], _) => none
  | (ds, rest) =>
    if ds.length > 1 ∧ ds.headI = 0 then none
    else
      match rest with
      | '.' :: _ => none
      | 'e' :: _ => none
      | 'E' :: _ => none
      | _ =>
        let n : Int := Int.ofNat (digitsToNat ds)
        some (.num (if p.1 then -n else n), rest)

/-- Fold raw object members into a dictionary, later duplicates overriding. -/
def objOfMembers (ms : List (String × Json)) : List (String × Json) :=
  ms.foldl (fun acc kv => objInsert acc kv.1 kv.2) []

mutual

/-- Parse one value; fuel bounds the recursion depth. -/
def parseValue : Nat → List Char → Option (Json × List Char)
  | 0, _ => none
  | fuel + 1, cs =>
    match skipWs cs with
    | 'n' :: 'u' :: 'l' :: 'l' :: rest => some (.null, rest)
    | 't' :: 'r' :: 'u' :: 'e' :: rest => some (.bool true, rest)
    | 'f' :: 'a' :: 'l' :: 's' :: 'e' :: rest => some (.bool false, rest)
    | '"' :: rest =>
      match parseStrAux rest with
      | some (s, rest2) => some (.str ⟨s⟩, rest2)
      | none => none
    | '[' :: rest =>
      match skipWs rest with
      | ']' :: rest2 => some (.arr [], rest2)
      | rest2 =>
        match parseElems fuel rest2 with
        | some (xs, rest3) => some (.arr xs, rest3)
        | none => none
    | '\x7b' :: rest =>
      match skipWs rest with
      | '\x7d' :: rest2 => some (.obj [], rest2)
      | rest2 =>
        match parseMembers fuel rest2 with
        | some (ms, rest3) => some (.obj (objOfMembers ms), rest3)
        | none => none
    | cs2 => parseNum cs2

/-- Parse the elements of a non-empty array, up to the closing bracket. -/
def parseElems : Nat → List Char → Option (List Json × List Char)
  | 0, _ => none
  | fuel + 1, cs =>
    match parseValue fuel cs with
    | none => none
    | some (v, rest) =>
      match skipWs rest with
      | ',' :: rest2 =>
        match parseElems fuel rest2 with
        | some (xs, rest3) => some (v :: xs, rest3)
        | none => none
      | ']' :: rest2 => some ([v], rest2)
      | _ => none

/-- Parse the members of a non-empty object, up to the closing brace. -/
def parseMembers : Nat → List Char → Option (List (String × Json) × List Char)
  | 0, _ => none
  | fuel + 1, cs =>
    match skipWs cs with
    | '"' :: rest =>
      match parseStrAux rest with
      | none => none
      | some (k, rest2) =>
        match skipWs rest2 with
        | ':' :: rest3 =>
          match parseValue fuel rest3 with
          | none => none
          | some (v, rest4) =>
            match skipWs rest4 with
            | ',' :: rest5 =>
              match parseMembers fuel rest5 with
              | some (ms, rest6) => some ((⟨k⟩, v) :: ms, rest6)
              | none => none
            | '\x7d' :: rest5 => some ([(⟨k⟩, v)], rest5)
            | _ => none
        | _ => none
    | _ => none

end

/-- Strict decode of a whole string: one value, then only whitespace. -/
def pyLoads (s : String) : Option Json :=
  match parseValue (s.length + 1) s.data with
  | some (v, rest) => if skipWs rest = [] then some v else none
  | none => none

/-- Whitespace stripped from both ends of captured output. -/
def pyWsChar (c : Char) : Bool :=
  c = ' ' || c = '\t' || c = '\n' || c = '\r' || c = '\x0b' || c = '\x0c'

/-- Strip surrounding whitespace, as `.strip()` does on the captured text. -/
def pyStrip (s : String) : String :=
  ⟨((s.data.dropWhile pyWsChar).reverse.dropWhile pyWsChar).reverse⟩

/-- Leading-substring test, as `startswith` performs it. -/
def pyStartsWith (pre s : String) : Bool := pre.data.isPrefixOf s.data

/-- Everything before the first newline, as `split at newline, take head`. -/
def firstLineOf (s : String) : String := ⟨s.data.takeWhile (fun c => c ≠ '\n')⟩

/-- Leading slice of at most `n` characters. -/
def pyTake (n : Nat) (s : String) : String := ⟨s.data.take n⟩

/-- Drop the first `n` characters. -/
def pyDrop (n : Nat) (s : String) : String := ⟨s.data.drop n⟩

/-- How the subprocess spawn of the external tool can end. -/
inductive SpawnOutcome where
  | completed (returncode : Int) (stdout stderr : String)
  | fileNotFound
  | otherError
  deriving DecidableEq

/-- Process Invoker `run_temper`: first component is the value returned to
the caller, second whether a stderr diagnostic was logged.  On a completed
spawn the trimmed standard output is returned regardless of the exit
status; the two exception arms notify the user and return the no-value
marker. -/
def run_temper (o : SpawnOutcome) : Option String × Bool :=
  match o with
  | .completed rc out err => (some (pyStrip out), decide (rc ≠ 0) && decide (err ≠ ""))
  | .fileNotFound => (none, false)
  | .otherError => (none, false)

/-- Tag one fetched record with its provenance tier; item assignment on a
non-dictionary element raises. -/
def tagRecord (isLocal : Bool) : Json → Except PyErr Json
  | .obj fs => .ok (.obj (objInsert fs "isLocal" (.bool isLocal)))
  | _ => .error .typeError

/-- Provenance-tagging loop over the elements of a decoded sequence,
stopping at the first element that raises. -/
def tagLoop (isLocal : Bool) : List Json → Except PyErr (List Json)
  | [] => .ok []
  | r :: rs =>
    match tagRecord isLocal r with
    | .error e => .error e
    | .ok t =>
      match tagLoop isLocal rs with
      | .error e => .error e
      | .ok ts => .ok (t :: ts)

/-- Run the provenance-tagging loop over the decoded `results` value.
Iterating a non-sequence raises; iterating a non-empty string or mapping
yields elements that reject item assignment; the empty string and the
empty mapping iterate zero times and are returned unchanged. -/
def tagResults (isLocal : Bool) (results : Json) : Except PyErr Json :=
  match results with
  | .arr items =>
    match tagLoop isLocal items with
    | .ok tagged => .ok (.arr tagged)
    | .error e => .error e
  | .str s => if s = "" then .ok (.str "") else .error .typeError
  | .obj fs => if fs = [] then .ok (.obj []) else .error .typeError
  | _ => .error .typeError

/-- Shared body of the two tier fetches, taking the raw trimmed tool output:
falsy output yields the empty list, a syntactic decode failure is caught
and yields the empty list, and otherwise the `results` field is read and
tagged with the tier. -/
def fetchTier (isLocal : Bool) (output : Option String) : Except PyErr Json :=
  match output with
  | none => .ok (.arr [])
  | some out =>
    if out = "" then .ok (.arr [])
    else
      match pyLoads out with
      | none => .ok (.arr [])
      | some data =>
        match pyGet data "results" (.arr []) with
        | .error e => .error e
        | .ok results => tagResults isLocal results

/-- Local-tier fetch `list_snippets`, as a function of the tool's output. -/
def list_snippets (output : Option String) : Except PyErr Json :=
  fetchTier true output

/-- Remote-tier fetch `search_snippets`, as a function of the tool's output. -/
def search_snippets (output : Option String) : Except PyErr Json :=
  fetchTier false output

/-- Detail fetch `get_snippet_info`: no output or a decode failure yields
the no-value marker, otherwise the decoded payload. -/
def get_snippet_info (output : Option String) : Option Json :=
  match output with
  | none => none
  | some out => if out = "" then none else pyLoads out

/-- The synthetic run-result for output no decode attempt can read. -/
def invalidResp (out : String) : Json :=
  .obj [("success", .bool false), ("output", .str out),
        ("error", .str ("Invalid response: " ++ pyTake 200 out))]

/-- The synthetic run-result for an invocation that produced no output. -/
def emptyRunResp : Json :=
  .obj [("success", .bool false), ("output", .str ""),
        ("error", .str "Failed to run temper")]

/-- Run-result decode `run_snippet`, as a function of the tool's output:
decode the whole string; failing that, when the string starts with the
payload's opening delimiter, decode just its first line; failing that,
synthesize a failure record carrying the first 200 characters. -/
def run_snippet (output : Option String) : Json :=
  match output with
  | none => emptyRunResp
  | some out =>
    if out = "" then emptyRunResp
    else
      match pyLoads out with
      | some v => v
      | none =>
        if pyStartsWith "\x7b" out then
          match pyLoads (firstLineOf out) with
          | some v => v
          | none => invalidResp out
        else invalidResp out

/-- The `slug` field read with a `None` default. -/
def slugOfRec (r : Json) : Except PyErr Json := pyGet r "slug" .null

/-- Hash-and-equality key of a decoded value used as a set element or set
probe.  Scalars are hashable, with booleans identified with the numbers 0
and 1 as the host language's equality and hashing do; sequences and
mappings are unhashable and make the set operation raise. -/
inductive PyKey where
  | nil : PyKey
  | int : Int → PyKey
  | str : String → PyKey
  deriving DecidableEq

/-- Hash a decoded value into its set key, raising when unhashable. -/
def pyHashKey : Json → Except PyErr PyKey
  | .null => .ok .nil
  | .bool b => .ok (.int (if b then 1 else 0))
  | .num n => .ok (.int n)
  | .str s => .ok (.str s)
  | .arr _ => .error .typeError
  | .obj _ => .error .typeError

/-- The local slug set build, in fetch order: read each record's slug and
hash it into the set, raising on a non-object record or an unhashable slug
value. -/
def slugsOf : List Json → Except PyErr (List PyKey)
  | [] => .ok []
  | r :: rs =>
    match slugOfRec r with
    | .error e => .error e
    | .ok s =>
      match pyHashKey s with
      | .error e => .error e
      | .ok k =>
        match slugsOf rs with
        | .error e => .error e
        | .ok ks => .ok (k :: ks)

/-- Append each remote record whose slug is not in the local slug set; the
set probe hashes the slug first and raises when it is unhashable. -/
def mergeCloud (localSlugs : List PyKey) : List Json → Except PyErr (List Json)
  | [] => .ok []
  | r :: rs =>
    match slugOfRec r with
    | .error e => .error e
    | .ok s =>
      match pyHashKey s with
      | .error e => .error e
      | .ok k =>
        match mergeCloud localSlugs rs with
        | .error e => .error e
        | .ok rest => .ok (if localSlugs.contains k then rest else r :: rest)

/-- Merged catalog view `get_all_snippets`, as a function of the two cached
tiers: all local records first, then the remote records whose slug is
absent from the local slug set. -/
def get_all_snippets (localTier cloud : List Json) : Except PyErr (List Json) :=
  match slugsOf localTier with
  | .error e => .error e
  | .ok localSlugs =>
    match mergeCloud localSlugs cloud with
    | .error e => .error e
    | .ok picked => .ok (localTier ++ picked)

/-- Containment test `x in container`, with the host language's semantics:
element membership in a sequence, substring in a string, key membership in
a mapping, and a raise on a non-container or an unhashable key probe. -/
def pyIn (x : Json) (container : Json) : Except PyErr Bool :=
  match container with
  | .arr xs => .ok (xs.contains x)
  | .str s =>
    match x with
    | .str t => .ok (decide (t.data <:+: s.data))
    | _ => .error .typeError
  | .obj fs =>
    match x with
    | .arr _ => .error .typeError
    | .obj _ => .error .typeError
    | _ => .ok (fs.any (fun kv => Json.str kv.1 == x))
  | _ => .error .typeError

/-- The session's language-filtering comprehension over the merged view. -/
def filterByLang (l : String) : List Json → Except PyErr (List Json)
  | [] => .ok []
  | r :: rs =>
    match pyGet r "languages" (.arr []) with
    | .error e => .error e
    | .ok langs =>
      match pyIn (.str l) langs with
      | .error e => .error e
      | .ok b =>
        match filterByLang l rs with
        | .error e => .error e
        | .ok rest => .ok (if b then r :: rest else rest)

/-- Truthiness of an optional decoded value. -/
def optTruthy : Option Json → Bool
  | none => false
  | some j => j.truthy

/-- Truthiness of the session's optional language tag. -/
def langTruthy : Option String → Bool
  | none => false
  | some s => decide (s ≠ "")

/-- The list the insertion session presents, as a function of the active
language and the merged view: `none` when no list is shown at all (empty
merged view); otherwise the language-filtered view, degrading to the full
view when the filter leaves nothing. -/
def show_panel_results (language : Option String) (allRecords : List Json) :
    Except PyErr (Option (List Json)) :=
  if allRecords = [] then .ok none
  else
    match language with
    | none => .ok (some allRecords)
    | some l =>
      if l = "" then .ok (some allRecords)
      else
        match filterByLang l allRecords with
        | .error e => .error e
        | .ok f => .ok (some (if f = [] then allRecords else f))

/-- Detail fetch with language fallback `fetch_and_insert`, as a function of
the active language and of the tool's `info` output for each language
argument: returns the list of language arguments queried, and the outcome —
`ok none` aborts with a failure status and no insertion, `ok (some c)`
inserts the fetched `code` value. -/
def fetch_and_insert (language : Option String) (toolOut : Option String → Option String) :
    List (Option String) × Except PyErr (Option Json) :=
  let s1 := get_snippet_info (toolOut language)
  let retry := !optTruthy s1 && langTruthy language && decide (language ≠ some "javascript")
  let queried := if retry then [language, some "javascript"] else [language]
  let snip := if retry then get_snippet_info (toolOut (some "javascript")) else s1
  (queried,
   if !optTruthy snip then .ok none
   else
     match snip with
     | some j =>
       match pyGet j "code" (.str "") with
       | .ok c => .ok (some c)
       | .error e => .error e
     | none => .ok none)

/-- Home-directory expansion of a leading tilde-slash. -/
def expanduser (home : String) (p : String) : String :=
  if pyStartsWith "~/" p then home ++ pyDrop 1 p else p

/-- Configured snippets directory `get_snippets_dir`, as a function of the
home directory and the tool's `config` output: the `snippetsDir` field of
the decoded config with an empty-string default, falling back to the fixed
path when the tool produced nothing or output that fails to decode. -/
def get_snippets_dir (home : String) (output : Option String) : Except PyErr Json :=
  match output with
  | some out =>
    if out = "" then .ok (.str (expanduser home "~/Snippets"))
    else
      match pyLoads out with
      | none => .ok (.str (expanduser home "~/Snippets"))
      | some config => pyGet config "snippetsDir" (.str "")
  | none => .ok (.str (expanduser home "~/Snippets"))

/-- Run-current-file gating predicate `is_snippet_file`: false on a missing
or empty path, otherwise a leading-substring test of the path against the
configured snippets directory. -/
def is_snippet_file (home : String) (configOut : Option String) (filePath : Option String) :
    Except PyErr Bool :=
  match filePath with
  | none => .ok false
  | some p =>
    if p = "" then .ok false
    else
      match get_snippets_dir home configOut with
      | .error e => .error e
      | .ok (.str sd) => .ok (pyStartsWith sd p)
      | .ok _ => .error .typeError

/-- Total slug projection used in specification statements: the `slug`
field of an object record, with the `None` default. -/
def slugD (r : Json) : Json :=
  match r with
  | .obj fs => dictGet fs "slug" .null
  | _ => .null

/-- A decoded value that is an object record. -/
def IsObjRec (r : Json) : Prop := ∃ fs, r = Json.obj fs

/-- A record whose slug value can enter the merge's slug set. -/
def HashableSlug (r : Json) : Prop := ∃ k, pyHashKey (slugD r) = .ok k

/-- Total slug-key projection for statements: the set key of a record's
slug; meaningful under the hashable-slug hypothesis. -/
def keyD (r : Json) : PyKey :=
  match pyHashKey (slugD r) with
  | .ok k => k
  | .error _ => .str ""

/-- Total form of provenance tagging, for statements. -/
def tagW (isLocal : Bool) (r : Json) : Json :=
  match r with
  | .obj fs => .obj (objInsert fs "isLocal" (.bool isLocal))
  | _ => r

/-- Slug uniqueness within one tier's collection. -/
def uniqueSlugs (items : List Json) : Prop := (items.map slugD).Nodup

/-- Concrete detail-fetch oracle for the fallback scenario: the tool finds
the snippet under the default language only. -/
def fallbackOracle : Option String → Option String :=
  fun o =>
    match o with
    | some "javascript" => some "\x7b\"code\":\"y\"\x7d"
    | _ => some ""

/-- Reading the slug of an object record never raises. -/
theorem slugOfRec_obj (r : Json) (h : IsObjRec r) : slugOfRec r = .ok (slugD r) := by
  obtain ⟨fs, rfl⟩ := h
  rfl

/-- Hashing the slug of a hashable-slug record yields its `keyD`. -/
theorem pyHashKey_keyD (r : Json) (h : HashableSlug r) :
    pyHashKey (slugD r) = .ok (keyD r) := by
  obtain ⟨k, hk⟩ := h
  simp [keyD, hk]

/-- On object records with hashable slugs the set build collects `keyD`. -/
theorem slugsOf_eq (L : List Json) (h : ∀ r ∈ L, IsObjRec r)
    (hK : ∀ r ∈ L, HashableSlug r) :
    slugsOf L = .ok (L.map keyD) := by
  induction L with
  | nil => rfl
  | cons r rs ih =>
    have hr := slugOfRec_obj r (h r (by simp))
    have hk := pyHashKey_keyD r (hK r (by simp))
    have htl := ih (fun x hx => h x (by simp [hx])) (fun x hx => hK x (by simp [hx]))
    simp [slugsOf, hr, hk, htl]

/-- On object records with hashable slugs the remote-merge loop is a
filter on slug keys. -/
theorem mergeCloud_eq (ks : List PyKey) (R : List Json) (h : ∀ r ∈ R, IsObjRec r)
    (hK : ∀ r ∈ R, HashableSlug r) :
    mergeCloud ks R = .ok (R.filter (fun r => !ks.contains (keyD r))) := by
  induction R with
  | nil => rfl
  | cons r rs ih =>
    have hr := slugOfRec_obj r (h r (by simp))
    have hk := pyHashKey_keyD r (hK r (by simp))
    have htl := ih (fun x hx => h x (by simp [hx])) (fun x hx => hK x (by simp [hx]))
    cases hc : ks.contains (keyD r) <;>
      simp [mergeCloud, hr, hk, htl, List.filter_cons, hc]

/-- Boolean membership agrees with propositional membership. -/
theorem contains_eq_decide_mem {α : Type} [DecidableEq α] (s : α) (ss : List α) :
    ss.contains s = decide (s ∈ ss) := by
  simp [List.contains, List.elem_eq_mem]

/-- Claim C1: for tiers of object records whose slug values are hashable —
as the data model's string slugs are — the merged view is all of the local
tier in order, followed by exactly the remote records whose slug key is
not in the local slug-key set, in order; a remote record whose slug key
occurs locally never enters the appended part, and when the local tier has
no duplicate records each of them occurs exactly once in the merged view.
Slug keys compare as the host language's set membership does, identifying
booleans with 0 and 1; an unhashable slug value would instead make the
merge raise. -/
theorem merged_view_spec (L R : List Json)
    (hL : ∀ r ∈ L, IsObjRec r) (hR : ∀ r ∈ R, IsObjRec r)
    (hKL : ∀ r ∈ L, HashableSlug r) (hKR : ∀ r ∈ R, HashableSlug r) :
    get_all_snippets L R =
      .ok (L ++ R.filter (fun r => decide (keyD r ∉ L.map keyD)))
    ∧ (∀ r ∈ R, keyD r ∈ L.map keyD →
        r ∉ R.filter (fun r => decide (keyD r ∉ L.map keyD)))
    ∧ (L.Nodup → ∀ l ∈ L,
        (L ++ R.filter (fun r => decide (keyD r ∉ L.map keyD))).count l = 1) := by
  have hfun : (fun r => !(L.map keyD).contains (keyD r))
      = (fun r => decide (keyD r ∉ L.map keyD)) := by
    funext r
    rw [contains_eq_decide_mem]
    by_cases hm : keyD r ∈ L.map keyD <;> simp [hm]
  refine ⟨?_, ?_, ?_⟩
  · simp only [get_all_snippets, slugsOf_eq L hL hKL,
      mergeCloud_eq (L.map keyD) R hR hKR, hfun]
  · intro r hrR hmem hcontra
    have h2 := (List.mem_filter.mp hcontra).2
    simp only [decide_eq_true_eq] at h2
    exact h2 hmem
  · intro hnd l hl
    rw [List.count_append, List.count_eq_one_of_mem hnd hl]
    have hnot : l ∉ R.filter (fun r => decide (keyD r ∉ L.map keyD)) := by
      intro hmem
      have h2 := (List.mem_filter.mp hmem).2
      simp only [decide_eq_true_eq] at h2
      exact h2 (List.mem_map_of_mem keyD hl)
    rw [List.count_eq_zero.mpr hnot]

/-- Witness: the merged view of concrete tiers sharing the slug `a`. -/
theorem merged_view_spec_witness :
    get_all_snippets [Json.obj [("slug", Json.str "a")]]
      [Json.obj [("slug", Json.str "a"), ("x", Json.num 1)],
       Json.obj [("slug", Json.str "b")]]
      = .ok [Json.obj [("slug", Json.str "a")], Json.obj [("slug", Json.str "b")]] := by
  have h := (merged_view_spec
    [Json.obj [("slug", Json.str "a")]]
    [Json.obj [("slug", Json.str "a"), ("x", Json.num 1)],
     Json.obj [("slug", Json.str "b")]]
    (by intro r hr; simp only [List.mem_singleton] at hr; exact ⟨_, hr⟩)
    (by intro r hr; simp only [List.mem_cons, List.mem_singleton] at hr
        rcases hr with h | h | h
        · exact ⟨_, h⟩
        · exact ⟨_, h⟩
        · cases h)
    (by intro r hr; simp only [List.mem_singleton] at hr; subst hr
        exact ⟨.str "a", by decide⟩)
    (by intro r hr; simp only [List.mem_cons, List.mem_singleton] at hr
        rcases hr with h | h | h
        · subst h; exact ⟨.str "a", by decide⟩
        · subst h; exact ⟨.str "b", by decide⟩
        · cases h)).1
  rw [h]
  decide

/-- One-step unfolding of association-list lookup as a conditional. -/
theorem lookup_cons (k a : String) (b : Json) (tl : List (String × Json)) :
    List.lookup k ((a, b) :: tl) = if k = a then some b else List.lookup k tl := by
  by_cases h : k = a
  · subst h
    simp [List.lookup]
  · have hb : (k == a) = false := by simp [h]
    simp [List.lookup, hb, h]

/-- Key replacement in a member list leaves other keys' lookups alone. -/
theorem lookup_map_replace (fs : List (String × Json)) (k k2 : String) (v : Json)
    (h : k ≠ k2) :
    (fs.map (fun kv => if kv.1 = k2 then (k2, v) else kv)).lookup k = fs.lookup k := by
  induction fs with
  | nil => rfl
  | cons kv tl ih =>
    obtain ⟨a, b⟩ := kv
    by_cases h1 : a = k2
    · subst h1
      have hhead : (if (a, b).1 = a then (a, v) else (a, b)) = (a, v) := if_pos rfl
      rw [List.map_cons, hhead, lookup_cons, lookup_cons, if_neg h, if_neg h]
      exact ih
    · have hhead : (if (a, b).1 = k2 then (k2, v) else (a, b)) = (a, b) := if_neg h1
      rw [List.map_cons, hhead, lookup_cons, lookup_cons]
      by_cases hk : k = a
      · simp [hk]
      · simp [hk, ih]

/-- Appending a member under another key leaves a key's lookup alone. -/
theorem lookup_append_other (fs : List (String × Json)) (k k2 : String) (v : Json)
    (h : k ≠ k2) :
    (fs ++ [(k2, v)]).lookup k = fs.lookup k := by
  induction fs with
  | nil =>
    rw [List.nil_append, lookup_cons, if_neg h]
  | cons kv tl ih =>
    obtain ⟨a, b⟩ := kv
    rw [List.cons_append, lookup_cons, lookup_cons]
    by_cases hk : k = a
    · simp [hk]
    · simp [hk, ih]

/-- Dictionary write under one key does not change reads of another key. -/
theorem dictGet_objInsert_ne (fs : List (String × Json)) (k k2 : String)
    (v d : Json) (h : k ≠ k2) :
    dictGet (objInsert fs k2 v) k d = dictGet fs k d := by
  unfold objInsert dictGet
  by_cases hs : (fs.lookup k2).isSome
  · rw [if_pos hs, lookup_map_replace fs k k2 v h]
  · rw [if_neg hs, lookup_append_other fs k k2 v h]

/-- Provenance tagging under either tier does not change a record's slug. -/
theorem slugD_tagW (isLocal : Bool) (r : Json) (h : IsObjRec r) :
    slugD (tagW isLocal r) = slugD r := by
  obtain ⟨fs, rfl⟩ := h
  simp only [tagW, slugD]
  exact dictGet_objInsert_ne fs "slug" "isLocal" (.bool isLocal) .null (by decide)

/-- On a sequence of object records either tagging loop is a plain map. -/
theorem tagLoop_eq (isLocal : Bool) (items : List Json)
    (h : ∀ r ∈ items, IsObjRec r) :
    tagLoop isLocal items = .ok (items.map (tagW isLocal)) := by
  induction items with
  | nil => rfl
  | cons r rs ih =>
    obtain ⟨fs, rfl⟩ := h r (by simp)
    have htl := ih (fun x hx => h x (by simp [hx]))
    simp [tagLoop, tagRecord, htl, tagW]

/-- Claim C2 counterexample: when the tool reports two records with the same
slug, the local-tier fetch keeps both — slugs are not unique in the
collection and no last-fetched-wins collapse happens. -/
theorem tier_dup_slugs_cex :
    list_snippets
        (some "\x7b\"results\":[\x7b\"slug\":\"a\"\x7d,\x7b\"slug\":\"a\"\x7d]\x7d")
      = .ok (.arr [.obj [("slug", .str "a"), ("isLocal", .bool true)],
                   .obj [("slug", .str "a"), ("isLocal", .bool true)]])
    ∧ ¬ uniqueSlugs [.obj [("slug", .str "a"), ("isLocal", .bool true)],
                     .obj [("slug", .str "a"), ("isLocal", .bool true)]] := by
  constructor
  · decide
  · intro h
    have h2 : (List.map slugD
        [Json.obj [("slug", .str "a"), ("isLocal", .bool true)],
         Json.obj [("slug", .str "a"), ("isLocal", .bool true)]]).Nodup := h
    exact absurd h2 (by decide)

/-- Claim C2 amended: both tier fetches pass the decoded `results` records
through unchanged apart from the provenance tag — duplicate slugs survive
in fetch order, and the slug sequence of the stored collection is exactly
the slug sequence the tool reported, for the local and the remote fetch
alike; uniqueness holds only when the tool's own results already had
unique slugs. -/
theorem tier_fetch_passthrough (out : String) (fs : List (String × Json))
    (items : List Json)
    (hne : out ≠ "") (hdec : pyLoads out = some (.obj fs))
    (hres : dictGet fs "results" (.arr []) = .arr items)
    (hobj : ∀ r ∈ items, IsObjRec r) :
    list_snippets (some out) = .ok (.arr (items.map (tagW true)))
    ∧ search_snippets (some out) = .ok (.arr (items.map (tagW false)))
    ∧ (items.map (tagW true)).map slugD = items.map slugD
    ∧ (items.map (tagW false)).map slugD = items.map slugD
    ∧ (uniqueSlugs items →
        uniqueSlugs (items.map (tagW true)) ∧ uniqueSlugs (items.map (tagW false))) := by
  have hslugs : ∀ b : Bool, (items.map (tagW b)).map slugD = items.map slugD := by
    intro b
    rw [List.map_map]
    exact List.map_congr_left (fun r hr => slugD_tagW b r (hobj r hr))
  refine ⟨?_, ?_, hslugs true, hslugs false, ?_⟩
  · simp [list_snippets, fetchTier, hne, hdec, pyGet, hres,
      tagResults, tagLoop_eq true items hobj]
  · simp [search_snippets, fetchTier, hne, hdec, pyGet, hres,
      tagResults, tagLoop_eq false items hobj]
  · intro hu
    constructor <;>
      · unfold uniqueSlugs at hu ⊢
        rw [hslugs]
        exact hu

/-- Witness: both pass-through fetches on a concrete duplicate-free
payload, tagging local and remote provenance respectively. -/
theorem tier_fetch_passthrough_witness :
    list_snippets (some "\x7b\"results\":[\x7b\"slug\":\"a\"\x7d,\x7b\"slug\":\"b\"\x7d]\x7d")
      = .ok (.arr [.obj [("slug", .str "a"), ("isLocal", .bool true)],
                   .obj [("slug", .str "b"), ("isLocal", .bool true)]])
    ∧ search_snippets (some "\x7b\"results\":[\x7b\"slug\":\"a\"\x7d,\x7b\"slug\":\"b\"\x7d]\x7d")
      = .ok (.arr [.obj [("slug", .str "a"), ("isLocal", .bool false)],
                   .obj [("slug", .str "b"), ("isLocal", .bool false)]]) := by
  have h := tier_fetch_passthrough
    "\x7b\"results\":[\x7b\"slug\":\"a\"\x7d,\x7b\"slug\":\"b\"\x7d]\x7d"
    [("results", .arr [.obj [("slug", .str "a")], .obj [("slug", .str "b")]])]
    [.obj [("slug", .str "a")], .obj [("slug", .str "b")]]
    (by decide) (by decide) (by decide)
    (by intro r hr; simp only [List.mem_cons, List.mem_singleton] at hr
        rcases hr with h | h | h
        · exact ⟨_, h⟩
        · exact ⟨_, h⟩
        · cases h)
  exact ⟨h.1.trans (by decide), h.2.1.trans (by decide)⟩

/-- Claim C3, a code bug: on tool output that decodes to a non-object payload,
both tier fetches raise an uncaught attribute error to their caller
instead of degrading to the empty sequence — only syntactic decode
failures are caught. -/
theorem parseList_nonobject_raises :
    list_snippets (some "3") = .error .attributeError
    ∧ search_snippets (some "3") = .error .attributeError := by
  constructor <;> decide

/-- Claim C4: when the whole output fails to decode but starts with the payload's
opening delimiter and its first line decodes, the run parse returns the
value decoded from the first line. -/
theorem parseRun_first_line_recovery (out : String) (v : Json)
    (h1 : pyLoads out = none)
    (h2 : pyStartsWith "\x7b" out = true)
    (h3 : pyLoads (firstLineOf out) = some v) :
    run_snippet (some out) = v := by
  have hne : out ≠ "" := by
    intro h
    subst h
    exact absurd h2 (by decide)
  simp [run_snippet, hne, h1, h2, h3]

/-- Witness: first-line recovery on a payload with leaked trailing text. -/
theorem parseRun_first_line_recovery_witness :
    run_snippet (some "\x7b\"success\":true,\"output\":\"x\"\x7d\nLOG: leaked text")
      = .obj [("success", .bool true), ("output", .str "x")] :=
  parseRun_first_line_recovery _ _ (by decide) (by decide) (by decide)

/-- Claim C5: on non-empty output for which every decode attempt fails, the run
parse returns the synthetic failure record carrying the raw output and a
message with its first 200 characters. -/
theorem parseRun_invalid_floor (out : String)
    (h0 : out ≠ "")
    (h1 : pyLoads out = none)
    (h2 : pyStartsWith "\x7b" out = true → pyLoads (firstLineOf out) = none) :
    run_snippet (some out) =
      .obj [("success", .bool false), ("output", .str out),
            ("error", .str ("Invalid response: " ++ pyTake 200 out))] := by
  cases hsw : pyStartsWith "\x7b" out with
  | false => simp [run_snippet, h0, h1, hsw, invalidResp]
  | true => simp [run_snippet, h0, h1, hsw, h2 hsw, invalidResp]

/-- Witness: the synthetic failure record on undecodable output. -/
theorem parseRun_invalid_floor_witness :
    run_snippet (some "not json at all")
      = .obj [("success", .bool false), ("output", .str "not json at all"),
              ("error", .str "Invalid response: not json at all")] := by
  have h := parseRun_invalid_floor "not json at all" (by decide) (by decide)
    (fun hs => absurd hs (by decide))
  rw [h]
  decide

/-- Claim C6: the detail fetch queries the active language first; a truthy first
result ends the chain there; a falsy first result under a non-default
active language triggers exactly one retry under the default language
`javascript`; the chain never holds a third query; when the retry finds a
truthy record its `code` field is what gets inserted; and when both
queries come back falsy the session aborts with no insertion. -/
theorem detail_fallback_chain (l : String) (toolOut : Option String → Option String)
    (hl : l ≠ "") :
    (fetch_and_insert (some l) toolOut).1.head? = some (some l)
    ∧ (optTruthy (get_snippet_info (toolOut (some l))) = true →
        (fetch_and_insert (some l) toolOut).1 = [some l])
    ∧ (optTruthy (get_snippet_info (toolOut (some l))) = false → l ≠ "javascript" →
        (fetch_and_insert (some l) toolOut).1 = [some l, some "javascript"])
    ∧ (fetch_and_insert (some l) toolOut).1.length ≤ 2
    ∧ (optTruthy (get_snippet_info (toolOut (some l))) = false → l ≠ "javascript" →
        ∀ fs, get_snippet_info (toolOut (some "javascript")) = some (.obj fs) →
          Json.truthy (.obj fs) = true →
          (fetch_and_insert (some l) toolOut).2 = .ok (some (dictGet fs "code" (.str ""))))
    ∧ (optTruthy (get_snippet_info (toolOut (some l))) = false →
        optTruthy (get_snippet_info (toolOut (some "javascript"))) = false →
        (fetch_and_insert (some l) toolOut).2 = .ok none) := by
  have hlt : langTruthy (some l) = true := by simp [langTruthy, hl]
  refine ⟨?_, ?_, ?_, ?_, ?_, ?_⟩
  · cases hs1 : optTruthy (get_snippet_info (toolOut (some l))) <;>
      by_cases hj : l = "javascript" <;>
      simp [fetch_and_insert, hlt, hs1, hj]
  · intro hs1
    simp [fetch_and_insert, hs1]
  · intro hs1 hj
    simp [fetch_and_insert, hlt, hs1, hj]
  · cases hs1 : optTruthy (get_snippet_info (toolOut (some l))) <;>
      by_cases hj : l = "javascript" <;>
      simp [fetch_and_insert, hlt, hs1, hj]
  · intro hs1 hj fs hjs htr
    have hsome : optTruthy (some (Json.obj fs)) = true := htr
    simp [fetch_and_insert, hlt, hs1, hj, hjs, hsome, pyGet]
  · intro hs1 hjs
    by_cases hj : l = "javascript"
    · subst hj
      simp [fetch_and_insert, hlt, hs1]
    · simp [fetch_and_insert, hlt, hs1, hj, hjs]

/-- Witness: active language `python`, record found only under the default
language — the chain is exactly two queries and inserts the fetched code. -/
theorem detail_fallback_chain_witness :
    (fetch_and_insert (some "python") fallbackOracle).1
        = [some "python", some "javascript"]
    ∧ (fetch_and_insert (some "python") fallbackOracle).2 = .ok (some (.str "y")) := by
  have h := detail_fallback_chain "python" fallbackOracle (by decide)
  refine ⟨h.2.2.1 (by decide) (by decide), ?_⟩
  have h5 := h.2.2.2.2.1 (by decide) (by decide) [("code", Json.str "y")]
    (by decide) (by decide)
  rw [h5]
  decide

/-- Claim C7: when language-filtering a non-empty merged view leaves nothing, the
session presents the full unfiltered view, and the presented list is never
empty while the merged view is non-empty. -/
theorem filter_degradation (l : String) (allRecords : List Json)
    (hl : l ≠ "") (hne : allRecords ≠ []) :
    (filterByLang l allRecords = .ok [] →
       show_panel_results (some l) allRecords = .ok (some allRecords))
    ∧ (∀ res, show_panel_results (some l) allRecords = .ok (some res) → res ≠ []) := by
  constructor
  · intro hf
    simp [show_panel_results, hne, hl, hf]
  · intro res hres
    cases hfl : filterByLang l allRecords with
    | error e =>
      simp [show_panel_results, hne, hl, hfl] at hres
    | ok f =>
      by_cases hf0 : f = []
      · simp [show_panel_results, hne, hl, hfl, hf0] at hres
        subst hres
        exact hne
      · simp [show_panel_results, hne, hl, hfl, hf0] at hres
        subst hres
        exact hf0

/-- Witness: a one-record merged view with no record in the session's
language is presented unfiltered. -/
theorem filter_degradation_witness :
    show_panel_results (some "python")
      [Json.obj [("slug", Json.str "a"), ("languages", Json.arr [Json.str "ruby"])]]
      = .ok (some [Json.obj [("slug", Json.str "a"),
                             ("languages", Json.arr [Json.str "ruby"])]]) :=
  (filter_degradation "python"
    [Json.obj [("slug", Json.str "a"), ("languages", Json.arr [Json.str "ruby"])]]
    (by decide) (by decide)).1 (by decide)

/-- One step of expansion: the fixed fallback path under the home dir. -/
theorem expanduser_fallback (home : String) :
    expanduser home "~/Snippets" = home ++ "/Snippets" := by
  unfold expanduser
  rw [if_pos (by decide)]
  have : pyDrop 1 "~/Snippets" = "/Snippets" := by decide
  rw [this]

/-- Claim C8: a file path that the configured snippets directory does not lead is
not gated in — the predicate returns false, so the run-current-file action
is not offered; and when the tool produced no output the directory is the
fixed fallback path under the user's home. -/
theorem run_current_gating (home : String) (configOut : Option String) (p sd : String)
    (hdir : get_snippets_dir home configOut = .ok (.str sd))
    (hout : pyStartsWith sd p = false) :
    is_snippet_file home configOut (some p) = .ok false
    ∧ get_snippets_dir home none = .ok (.str (home ++ "/Snippets")) := by
  constructor
  · by_cases hp : p = ""
    · simp [is_snippet_file, hp]
    · simp [is_snippet_file, hp, hdir, hout]
  · simp [get_snippets_dir, expanduser_fallback]

/-- Witness: a path outside the configured directory is rejected. -/
theorem run_current_gating_witness :
    is_snippet_file "/home/u" (some "\x7b\"snippetsDir\":\"/home/u/Snippets\"\x7d")
      (some "/etc/passwd") = .ok false
    ∧ get_snippets_dir "/home/u" none = .ok (.str "/home/u/Snippets") := by
  have h := run_current_gating "/home/u"
    (some "\x7b\"snippetsDir\":\"/home/u/Snippets\"\x7d")
    "/etc/passwd" "/home/u/Snippets" (by decide) (by decide)
  exact ⟨h.1, h.2.trans (by decide)⟩

/-- Claim C10: the gate is exactly a string-prefix test — it accepts precisely
the non-empty paths of which the configured directory string is a leading
substring; when the config payload decodes to an object without a
`snippetsDir` field the directory is the empty string; and the empty
string leads every path, so then every non-empty path passes. -/
theorem gating_string_prefix_rule (home : String) (configOut : Option String) (p sd : String)
    (hdir : get_snippets_dir home configOut = .ok (.str sd)) :
    (is_snippet_file home configOut (some p) = .ok true
       ↔ p ≠ "" ∧ pyStartsWith sd p = true)
    ∧ (∀ out fs, out ≠ "" → pyLoads out = some (.obj fs) →
         fs.lookup "snippetsDir" = none →
         get_snippets_dir home (some out) = .ok (.str ""))
    ∧ pyStartsWith "" p = true := by
  refine ⟨⟨?_, ?_⟩, ?_, ?_⟩
  · intro h
    by_cases hp : p = ""
    · simp [is_snippet_file, hp] at h
    · refine ⟨hp, ?_⟩
      simp [is_snippet_file, hp, hdir] at h
      exact h
  · rintro ⟨hp, hsw⟩
    simp [is_snippet_file, hp, hdir, hsw]
  · intro out fs hne hdec hlook
    simp [get_snippets_dir, hne, hdec, pyGet, dictGet, hlook]
  · have hd : ("" : String).data = [] := rfl
    simp [pyStartsWith, hd, List.isPrefixOf]

/-- Witness: a sibling path that merely begins with the directory string
passes the gate, and with a config lacking `snippetsDir` any path passes. -/
theorem gating_string_prefix_rule_witness :
    is_snippet_file "/home/u" (some "\x7b\"snippetsDir\":\"/home/u/Snippets\"\x7d")
      (some "/home/u/Snippetsevil/x.js") = .ok true
    ∧ is_snippet_file "/home/u" (some "\x7b\"other\":1\x7d")
        (some "/anywhere/f.js") = .ok true := by
  constructor
  · exact (gating_string_prefix_rule "/home/u"
      (some "\x7b\"snippetsDir\":\"/home/u/Snippets\"\x7d")
      "/home/u/Snippetsevil/x.js" "/home/u/Snippets"
      (by decide)).1.mpr ⟨by decide, by decide⟩
  · exact (gating_string_prefix_rule "/home/u" (some "\x7b\"other\":1\x7d")
      "/anywhere/f.js" "" (by decide)).1.mpr ⟨by decide, by decide⟩

/-- The head of what survives a leading dropWhile fails the predicate. -/
theorem head?_dropWhile_not {α : Type} (p : α → Bool) (l : List α) (c : α)
    (h : (l.dropWhile p).head? = some c) : p c = false := by
  induction l with
  | nil => simp [List.dropWhile] at h
  | cons x xs ih =>
    rw [List.dropWhile_cons] at h
    by_cases hx : p x
    · rw [if_pos hx] at h
      exact ih h
    · rw [if_neg hx] at h
      simp at h
      subst h
      simpa using hx

/-- A leading dropWhile cannot change a surviving last element. -/
theorem getLast?_dropWhile_mem {α : Type} (p : α → Bool) (l : List α) (c : α)
    (h : (l.dropWhile p).getLast? = some c) : l.getLast? = some c := by
  induction l with
  | nil => simp [List.dropWhile] at h
  | cons x xs ih =>
    rw [List.dropWhile_cons] at h
    by_cases hx : p x
    · rw [if_pos hx] at h
      have hxs := ih h
      cases xs with
      | nil => simp at hxs
      | cons y ys =>
        rw [List.getLast?_cons_cons]
        exact hxs
    · rw [if_neg hx] at h
      exact h

/-- Claim C9: on any completed spawn the invoker returns the captured standard
output stripped of surrounding whitespace, independently of the exit
status; a non-zero status with non-empty stderr only sets the logging
flag; and the returned text really is the output with no leading or
trailing whitespace character, a sub-sequence of the captured output. -/
theorem invoker_returns_stdout (rc : Int) (out err : String) :
    (run_temper (.completed rc out err)).1 = some (pyStrip out)
    ∧ (rc ≠ 0 → err ≠ "" → (run_temper (.completed rc out err)).2 = true)
    ∧ (∀ c, (pyStrip out).data.head? = some c → pyWsChar c = false)
    ∧ (∀ c, (pyStrip out).data.getLast? = some c → pyWsChar c = false)
    ∧ List.Sublist (pyStrip out).data out.data := by
  refine ⟨rfl, ?_, ?_, ?_, ?_⟩
  · intro h1 h2
    simp [run_temper, h1, h2]
  · intro c hc
    have hc2 : (((out.data.dropWhile pyWsChar).reverse.dropWhile pyWsChar)).reverse.head?
        = some c := hc
    rw [List.head?_reverse] at hc2
    have h3 := getLast?_dropWhile_mem pyWsChar _ c hc2
    rw [List.getLast?_reverse] at h3
    exact head?_dropWhile_not pyWsChar _ c h3
  · intro c hc
    have hc2 : (((out.data.dropWhile pyWsChar).reverse.dropWhile pyWsChar)).reverse.getLast?
        = some c := hc
    rw [List.getLast?_reverse] at hc2
    exact head?_dropWhile_not pyWsChar _ c hc2
  · have h1 : List.Sublist ((out.data.dropWhile pyWsChar).reverse.dropWhile pyWsChar)
        ((out.data.dropWhile pyWsChar).reverse) := (List.dropWhile_suffix _).sublist
    have h2 : List.Sublist ((out.data.dropWhile pyWsChar).reverse.dropWhile pyWsChar).reverse
        (out.data.dropWhile pyWsChar) := by
      have h3 := List.reverse_sublist.mpr h1
      rwa [List.reverse_reverse] at h3
    exact h2.trans (List.dropWhile_suffix _).sublist

/-- Witness: a non-zero exit with stderr still returns trimmed stdout. -/
theorem invoker_returns_stdout_witness :
    (run_temper (.completed 1 "  hi \n" "boom")).1 = some "hi"
    ∧ (run_temper (.completed 1 "  hi \n" "boom")).2 = true := by
  have h := invoker_returns_stdout 1 "  hi \n" "boom"
  exact ⟨h.1.trans (by decide), h.2.1 (by decide) (by decide)⟩

end Temper
